import Mathlib

/-!
Shallow embedding of the `numers` compiler front end (files `parser.rs`,
`compiler.rs`, `error.rs`) and proofs about the claims of its specification.

Rust `f64` literal payloads are modelled as `Rat` (the numeric value is opaque
to every algorithm under verification: tokens are only compared structurally,
and the literals exercised here are small integers, exact in both types).
Rust `Vec` stacks are modelled as Lean lists whose head is the stack top
(`Vec::push` is cons, `Vec::pop` takes the head, `last()` is the head).
-/

namespace Numers

/-- The token enum of `parser.rs` (`ParseToken`). -/
inductive ParseToken where
  | Add
  | Subtract
  | Multiply
  | Divide
  | Exponent
  | Assign
  | OpenParen
  | CloseParen
  | Comma
  | Identifier (name : String)
  | Number (value : Rat)
deriving Repr, DecidableEq

/-- The error enum of `error.rs` (`CompileError`).  The extra constructor
`FloatParseError` models the `anyhow`-wrapped `std` float-parse failure that
`tokenize` propagates via `.context(...)`: it is not a `CompileError` variant
in the source, but it is an error value distinct from every variant. -/
inductive CompileError where
  | InvalidCharacter (c : Char)
  | InvalidAssignment
  | InvalidToken (t : ParseToken)
  | OperandError
  | NameError (name : String)
  | FloatParseError (text : String)
deriving Repr, DecidableEq

namespace ParseToken

/-- `ParseToken::is_operator`: membership in the five arithmetic operators,
written with `contains` as in the source. -/
def is_operator (t : ParseToken) : Bool :=
  [ParseToken.Add, ParseToken.Subtract, ParseToken.Multiply,
    ParseToken.Divide, ParseToken.Exponent].contains t

/-- `ParseToken::presidence` (sic): `+ -` are 2, `* /` are 3, `^` is 4,
everything else 1. -/
def presidence (t : ParseToken) : Int :=
  match t with
  | .Add => 2
  | .Subtract => 2
  | .Multiply => 3
  | .Divide => 3
  | .Exponent => 4
  | _ => 1

/-- `ParseToken::is_left_associative`: true exactly for `+ - * /`. -/
def is_left_associative (t : ParseToken) : Bool :=
  match t with
  | .Add | .Subtract | .Multiply | .Divide => true
  | .Exponent => false
  | _ => false

/-- `ParseToken::is_number`. -/
def is_number (t : ParseToken) : Bool :=
  match t with
  | .Number _ => true
  | _ => false

/-- `ParseToken::is_identifier`. -/
def is_identifier (t : ParseToken) : Bool :=
  match t with
  | .Identifier _ => true
  | _ => false

end ParseToken

/-- The constant `DIGITS` of `parser.rs`. -/
def DIGITS : String := ".0123456789"

/-- The constant `ALPHABET` of `parser.rs`. -/
def ALPHABET : String := "_abcdefghijklmnopqrstuvwxyzABCDEFGHIJKLMNOPQRSTUVWXYZ"

/-- The lexer's inner `while let Some(c) = chars.peek()` loops: consume
characters while they belong to `allowed` (Rust's `str::contains(char)`,
written over the string's character list), returning the consumed prefix and
the rest of the input. -/
def takeWhileContained (allowed : String) : List Char → List Char × List Char
  | [] => ([], [])
  | c :: cs =>
    if allowed.data.contains c then
      ((c :: (takeWhileContained allowed cs).1), (takeWhileContained allowed cs).2)
    else
      ([], c :: cs)

theorem takeWhileContained_rest_length (allowed : String) :
    ∀ cs : List Char, (takeWhileContained allowed cs).2.length ≤ cs.length := by
  intro cs
  induction cs with
  | nil => simp [takeWhileContained]
  | cons c cs ih =>
    simp only [takeWhileContained]
    split
    · exact Nat.le_succ_of_le ih
    · simp

/-- The numeric value of a decimal digit string, most significant digit first. -/
def digitsVal (l : List Char) : Nat :=
  l.foldl (fun acc c => 10 * acc + (c.toNat - 48)) 0

/-- Modelled from the Rust standard library's `str::parse::<f64>` on the
character shapes the lexer can accumulate (digits and dots): the parse
succeeds exactly when the text holds at least one digit and at most one dot,
and yields the denoted decimal value (exact, as a rational). -/
def parseFloat (s : String) : Option Rat :=
  let cs := s.toList
  let intPart := cs.takeWhile (fun c => !(c == '.'))
  let frac := (cs.dropWhile (fun c => !(c == '.'))).drop 1
  if cs.any (fun c => c.isDigit) && (cs.filter (fun c => c == '.')).length ≤ 1 then
    if frac.isEmpty then
      some (digitsVal intPart : Rat)
    else
      some ((digitsVal intPart : Rat) + (digitsVal frac : Rat) / ((10 : Rat) ^ frac.length))
  else
    none

/-- The main loop of `tokenize` in `parser.rs`.  Note the number-start arm
mirrors the source's `'0'..'9' | '.'` pattern, an exclusive range: it matches
`'0'` through `'8'` and `'.'`, but not `'9'`. -/
def tokenize_loop : List Char → Except CompileError (List ParseToken)
  | [] => .ok []
  | ch :: cs =>
    if ('0' ≤ ch && ch < '9') || ch == '.' then
      let number := String.mk (ch :: (takeWhileContained DIGITS cs).1)
      match parseFloat number with
      | some parsed =>
        (tokenize_loop (takeWhileContained DIGITS cs).2).map
          (fun ts => ParseToken.Number parsed :: ts)
      | none => .error (CompileError.FloatParseError number)
    else if ('a' ≤ ch && ch ≤ 'z') || ('A' ≤ ch && ch ≤ 'Z') || ch == '_' then
      (tokenize_loop (takeWhileContained ALPHABET cs).2).map
        (fun ts => ParseToken.Identifier (String.mk (ch :: (takeWhileContained ALPHABET cs).1)) :: ts)
    else if ch == '+' then (tokenize_loop cs).map (fun ts => ParseToken.Add :: ts)
    else if ch == '-' then (tokenize_loop cs).map (fun ts => ParseToken.Subtract :: ts)
    else if ch == '*' then (tokenize_loop cs).map (fun ts => ParseToken.Multiply :: ts)
    else if ch == '/' then (tokenize_loop cs).map (fun ts => ParseToken.Divide :: ts)
    else if ch == '^' then (tokenize_loop cs).map (fun ts => ParseToken.Exponent :: ts)
    else if ch == '=' then (tokenize_loop cs).map (fun ts => ParseToken.Assign :: ts)
    else if ch == ',' then (tokenize_loop cs).map (fun ts => ParseToken.Comma :: ts)
    else if ch == '(' then (tokenize_loop cs).map (fun ts => ParseToken.OpenParen :: ts)
    else if ch == ')' then (tokenize_loop cs).map (fun ts => ParseToken.CloseParen :: ts)
    else if ch == ' ' || ch == '\t' then tokenize_loop cs
    else .error (CompileError.InvalidCharacter ch)
termination_by cs => cs.length
decreasing_by
  · exact Nat.lt_succ_of_le (takeWhileContained_rest_length DIGITS cs)
  · exact Nat.lt_succ_of_le (takeWhileContained_rest_length ALPHABET cs)
  all_goals exact Nat.lt_succ_self cs.length

/-- `tokenize` of `parser.rs`. -/
def tokenize (source : String) : Except CompileError (List ParseToken) :=
  tokenize_loop source.toList

/-- The `should_pop` closure of `infix_to_rpn`: the stack (top = head) is
non-empty, its top is not an open-paren, and the top has strictly greater
precedence than `t`, or precedence at least `t`'s with `t` left-associative. -/
def should_pop (t : ParseToken) (stack : List ParseToken) : Bool :=
  match stack with
  | [] => false
  | last :: _ =>
    !(last == ParseToken.OpenParen) &&
      (decide (last.presidence > t.presidence) ||
        (decide (last.presidence ≥ t.presidence) && t.is_left_associative))

/-- The operator arm's `while should_pop ... { output.push(stack.pop()) }`:
returns the tokens popped (in pop order, appended to the output) and the
remaining stack. -/
def pop_while (t : ParseToken) : List ParseToken → List ParseToken × List ParseToken
  | [] => ([], [])
  | top :: rest =>
    if should_pop t (top :: rest) then
      ((top :: (pop_while t rest).1), (pop_while t rest).2)
    else
      ([], top :: rest)

/-- The close-paren arm's inner `while` of `infix_to_rpn`: pop everything
down to an open-paren into the output, discard the open-paren, and if the
entry below it is an identifier (a function-call head) pop that into the
output too.  Returns (tokens appended to output, remaining stack). -/
def close_paren_drain : List ParseToken → List ParseToken × List ParseToken
  | [] => ([], [])
  | top :: rest =>
    if top == ParseToken.OpenParen then
      match rest with
      | next_top :: rest2 =>
        if next_top.is_identifier then ([next_top], rest2) else ([], rest)
      | [] => ([], [])
    else
      ((top :: (close_paren_drain rest).1), (close_paren_drain rest).2)

/-- The comma arm's inner `while` of `infix_to_rpn`: pop everything down to
an open-paren into the output, discarding the open-paren. -/
def comma_drain : List ParseToken → List ParseToken × List ParseToken
  | [] => ([], [])
  | top :: rest =>
    if top == ParseToken.OpenParen then
      ([], rest)
    else
      ((top :: (comma_drain rest).1), (comma_drain rest).2)

/-- The `while let Some(token) = tokens.next()` loop of `infix_to_rpn`,
with the output and operator stack threaded; at end of input the remaining
stack is appended to the output top-first (`stack.iter().rev()`). -/
def infix_loop : List ParseToken → List ParseToken → List ParseToken → List ParseToken
  | [], stack, output => output ++ stack
  | token :: rest, stack, output =>
    match token with
    | .OpenParen => infix_loop rest (ParseToken.OpenParen :: stack) output
    | .CloseParen =>
      infix_loop rest (close_paren_drain stack).2 (output ++ (close_paren_drain stack).1)
    | .Comma =>
      infix_loop rest (comma_drain stack).2 (output ++ (comma_drain stack).1)
    | .Identifier n =>
      if rest.head? == some ParseToken.OpenParen then
        infix_loop rest (ParseToken.Identifier n :: ParseToken.OpenParen :: stack) output
      else
        infix_loop rest stack (output ++ [ParseToken.Identifier n])
    | .Number v => infix_loop rest stack (output ++ [ParseToken.Number v])
    | op =>
      infix_loop rest (op :: (pop_while op stack).2) (output ++ (pop_while op stack).1)

/-- `infix_to_rpn` of `parser.rs`: the shunting-yard conversion.  The source
function's only `return` is `Ok(output)`: it has no error path. -/
def infix_to_rpn (expr : List ParseToken) : Except CompileError (List ParseToken) :=
  .ok (infix_loop expr [] [])

/-- `slice::split_once` specialised to the use in `parse`: split at the first
element satisfying the predicate, dropping that element. -/
def split_once (p : ParseToken → Bool) : List ParseToken → Option (List ParseToken × List ParseToken)
  | [] => none
  | x :: xs =>
    if p x then some ([], xs)
    else
      match split_once p xs with
      | some (l, r) => some (x :: l, r)
      | none => none

/-- `Declaration` of `parser.rs`. -/
structure Declaration where
  name : String
  args : List String
  body : List ParseToken
deriving Repr, DecidableEq

/-- `Statement` of `parser.rs`. -/
inductive Statement where
  | Declaration (d : Declaration)
  | Expression (body : List ParseToken)
deriving Repr, DecidableEq

/-- `split_declaration` of `parser.rs`: the first token must be an
identifier (else `InvalidAssignment`); the arguments are the identifier
payloads of the remaining tokens, in order. -/
def split_declaration (declaration : List ParseToken) :
    Except CompileError (String × List String) :=
  match declaration.head? with
  | some (ParseToken.Identifier n) =>
    .ok (n, (declaration.drop 1).filterMap (fun t =>
      match t with
      | ParseToken.Identifier arg => some arg
      | _ => none))
  | _ => .error CompileError.InvalidAssignment

/-- Rust's `str::split('\n')` on a character list: `n` newline separators
yield `n + 1` pieces (an empty trailing piece included). -/
def splitLines : List Char → List (List Char)
  | [] => [[]]
  | c :: cs =>
    if c == '\n' then
      [] :: splitLines cs
    else
      match splitLines cs with
      | l :: ls => (c :: l) :: ls
      | [] => [[c]]

/-- The per-line body of `parse`: build one statement from one line's
tokens.  (The `.expect` on `split_once` is unreachable because the branch is
guarded by `tokens.contains(Assign)`; it is modelled as an error.) -/
def parse_line (tokens : List ParseToken) : Except CompileError Statement :=
  if tokens.contains ParseToken.Assign then
    match split_once (fun t => t == ParseToken.Assign) tokens with
    | some (id, expr) =>
      match split_declaration id with
      | .ok (name, args) =>
        (infix_to_rpn expr).map (fun body =>
          Statement.Declaration { name := name, args := args, body := body })
      | .error e => .error e
    | none => .error CompileError.InvalidAssignment
  else
    (infix_to_rpn tokens).map (fun rpn => Statement.Expression rpn)

/-- The `for (line_num, line) in source.split('\n')` loop of `parse`;
the `.context(line number)` wrappers do not change which computation fails,
so they are not modelled. -/
def parse_lines : List (List Char) → Except CompileError (List Statement)
  | [] => .ok []
  | line :: rest =>
    match tokenize_loop line with
    | .error e => .error e
    | .ok tokens =>
      match parse_line tokens with
      | .error e => .error e
      | .ok stmt => (parse_lines rest).map (fun stmts => stmt :: stmts)

/-- `parse` of `parser.rs`. -/
def parse (source : String) : Except CompileError (List Statement) :=
  parse_lines (splitLines source.toList)

/-- Decimal rendering of a natural number, most significant digit first,
modelling Rust's integer `Display` (used by the `format!` calls of
`compiler.rs`). -/
def natDecimal (n : Nat) : String :=
  if n = 0 then "0"
  else String.mk ((Nat.digits 10 n).reverse.map Nat.digitChar)

/-- Rendering of an `i32` given by its 32-bit two's-complement bit pattern
`t` (a natural below `2^32 = 4294967296`): patterns below `2^31` print as
their own value, the rest as the negative value `t - 2^32`, modelling
Rust's `i32` `Display`. -/
def i32Repr (t : Nat) : String :=
  if t < 2147483648 then natDecimal t
  else "-" ++ natDecimal (4294967296 - t)

namespace Compiler

/-- The `Type` enum of `compiler.rs` (named `Ty` here: `Type` is a Lean
keyword). -/
inductive Ty where
  | Word
  | Long
  | Single
  | Double
deriving Repr, DecidableEq

/-- `impl fmt::Display for Type` of `compiler.rs`. -/
def Ty.toString (t : Ty) : String :=
  match t with
  | .Word => "w"
  | .Long => "l"
  | .Single => "s"
  | .Double => "d"

/-- The `Operation` enum of `compiler.rs`. -/
inductive Operation where
  | Add (x y : String)
  | Sub (x y : String)
  | Div (x y : String)
  | Mul (x y : String)
  | Pow (x y : String)
  | Call (func : String)
deriving Repr, DecidableEq

/-- `impl fmt::Display for Operation` of `compiler.rs`: note the arithmetic
mnemonics separate their two operands with a space (`"{op} %{x} %{y}"`) and
prefix each with `%`, while `Pow` renders as a `$pow` call with
comma-separated, unprefixed operands. -/
def Operation.toString (op : Operation) : String :=
  match op with
  | .Add x y => "add %" ++ x ++ " %" ++ y
  | .Sub x y => "sub %" ++ x ++ " %" ++ y
  | .Mul x y => "mul %" ++ x ++ " %" ++ y
  | .Div x y => "div %" ++ x ++ " %" ++ y
  | .Pow x y => "call $pow(d " ++ x ++ ", d " ++ y ++ ")"
  | .Call func => "call " ++ func

/-- The `Statement` struct of `compiler.rs` (an IR instruction). -/
structure Statement where
  identifier : String
  assign_type : Ty
  operation : Operation
deriving Repr, DecidableEq

/-- `Statement::new` of `compiler.rs`. -/
def Statement.new (identifier : String) (operation : Operation) : Statement :=
  { identifier := identifier, assign_type := Ty.Double, operation := operation }

/-- `impl fmt::Display for Statement` of `compiler.rs`:
`"\t{identifier} ={type} {operation}"`. -/
def Statement.toString (s : Statement) : String :=
  "\t" ++ s.identifier ++ " =" ++ s.assign_type.toString ++ " " ++ s.operation.toString

/-- The `VariableCounter` struct of `compiler.rs`; the `HashMap` is modelled
as an association list.  `tempcount` is an `i32` in the source; it is
modelled as its 32-bit two's-complement bit pattern (a natural kept below
`2^32` by every operation), so that the increment in `next_temp` wraps
exactly as a release build's `+= 1` does. -/
structure VariableCounter where
  tempcount : Nat
  pairs : List (String × Nat)
deriving Repr, DecidableEq

/-- `VariableCounter::new`. -/
def VariableCounter.new : VariableCounter :=
  { tempcount := 0, pairs := [] }

/-- `VariableCounter::get`: resolve an identifier's current version, failing
with `NameError` carrying the identifier when it was never assigned. -/
def VariableCounter.get (c : VariableCounter) (identifier : String) :
    Except CompileError String :=
  match c.pairs.lookup identifier with
  | some count => .ok ("%" ++ identifier ++ "_" ++ i32Repr count)
  | none => .error (CompileError.NameError identifier)

/-- `VariableCounter::next_temp`: increment the counter (`self.tempcount += 1`
wraps modulo `2^32`, the release-build overflow semantics of `i32`) and
return the fresh temporary's name together with the updated counter state. -/
def VariableCounter.next_temp (c : VariableCounter) : String × VariableCounter :=
  ("%_" ++ i32Repr ((c.tempcount + 1) % 4294967296),
    { c with tempcount := (c.tempcount + 1) % 4294967296 })

/-- `VariableCounter::current_temp`. -/
def VariableCounter.current_temp (c : VariableCounter) : String :=
  "%_" ++ i32Repr c.tempcount

/-- The `for token in expr` loop of `compile_expr` in `compiler.rs`, with the
value stack, the emitted instructions and the counter threaded.  Faithful to
the source: an operator pops `y` then `x`, which must both be
`ParseToken::Identifier` values, and emits `Operation::Add(x, y)` (the
source hardcodes `Add` for every operator) without pushing anything back;
any non-operator token is rejected with `InvalidToken`; nothing is ever
pushed onto the value stack. -/
def compile_expr_loop :
    List ParseToken → List ParseToken → List Statement → VariableCounter →
      Except CompileError (List Statement × String)
  | [], _stack, compiled, counter => .ok (compiled, counter.current_temp)
  | token :: rest, stack, compiled, counter =>
    if token.is_operator then
      match stack with
      | ParseToken.Identifier y :: ParseToken.Identifier x :: stack2 =>
        compile_expr_loop rest stack2
          (compiled ++ [Statement.new (counter.next_temp).1 (Operation.Add x y)])
          (counter.next_temp).2
      | _ => .error CompileError.OperandError
    else
      .error (CompileError.InvalidToken token)

/-- `compile_expr` of `compiler.rs`. -/
def compile_expr (expr : List ParseToken) (counter : VariableCounter) :
    Except CompileError (List Statement × String) :=
  compile_expr_loop expr [] [] counter

/-- The name returned by the `(i+1)`-th of a run of successive
`next_temp` calls starting from counter state `c`. -/
def tempNameSeq (c : VariableCounter) : Nat → String
  | 0 => (c.next_temp).1
  | i + 1 => tempNameSeq (c.next_temp).2 i

end Compiler

/-- Left inverse of `natDecimal`: read a decimal string back as a number. -/
def unRepr (s : String) : Nat :=
  Nat.ofDigits 10 ((s.data.map (fun c => c.toNat - 48)).reverse)

theorem digitChar_toNat_small : ∀ d, d < 10 → (Nat.digitChar d).toNat - 48 = d := by decide

theorem unRepr_natDecimal (n : Nat) : unRepr (natDecimal n) = n := by
  rcases Nat.eq_zero_or_pos n with h | h
  · subst h; rfl
  · have hn : n ≠ 0 := Nat.pos_iff_ne_zero.mp h
    simp only [natDecimal, if_neg hn, unRepr]
    show Nat.ofDigits 10 ((((Nat.digits 10 n).reverse.map Nat.digitChar).map
      (fun c => c.toNat - 48)).reverse) = n
    rw [List.map_map]
    have hmap : ((Nat.digits 10 n).reverse.map ((fun c => c.toNat - 48) ∘ Nat.digitChar))
        = (Nat.digits 10 n).reverse.map id := by
      apply List.map_congr_left
      intro d hd
      have hd10 : d < 10 := Nat.digits_lt_base (by norm_num) (List.mem_reverse.mp hd)
      simpa using digitChar_toNat_small d hd10
    rw [hmap, List.map_id, List.reverse_reverse, Nat.ofDigits_digits]

theorem natDecimal_injective : Function.Injective natDecimal := by
  intro m n h
  have h2 := congrArg unRepr h
  rwa [unRepr_natDecimal, unRepr_natDecimal] at h2

theorem str_append_left_cancel {s a b : String} (h : s ++ a = s ++ b) : a = b := by
  have h2 := congrArg String.data h
  rw [String.data_append, String.data_append] at h2
  exact String.ext (List.append_cancel_left h2)

theorem digitChar_ne_dash : ∀ d, d < 10 → Nat.digitChar d ≠ '-' := by decide

theorem natDecimal_data_head (n : Nat) :
    ∃ d t, d < 10 ∧ (natDecimal n).data = Nat.digitChar d :: t := by
  rcases Nat.eq_zero_or_pos n with h | h
  · subst h
    exact ⟨0, [], by decide, rfl⟩
  · have hn : n ≠ 0 := Nat.pos_iff_ne_zero.mp h
    cases hrev : (Nat.digits 10 n).reverse with
    | nil =>
      exact absurd (by simpa using congrArg List.reverse hrev)
        (Nat.digits_ne_nil_iff_ne_zero.mpr hn)
    | cons d t =>
      have hd : d ∈ Nat.digits 10 n := by
        have h1 : d ∈ (Nat.digits 10 n).reverse := by
          rw [hrev]
          exact List.mem_cons_self d t
        exact List.mem_reverse.mp h1
      refine ⟨d, t.map Nat.digitChar, Nat.digits_lt_base (by norm_num) hd, ?_⟩
      simp [natDecimal, if_neg hn, hrev]

theorem natDecimal_ne_dash_append (a b : Nat) : natDecimal a ≠ "-" ++ natDecimal b := by
  intro h
  obtain ⟨d, t, hd10, hdata⟩ := natDecimal_data_head a
  have h2 := congrArg String.data h
  rw [String.data_append, hdata] at h2
  have h3 : Nat.digitChar d :: t = '-' :: (natDecimal b).data := h2
  injection h3 with h4 h5
  exact digitChar_ne_dash d hd10 h4

theorem i32Repr_inj {s t : Nat} (hs : s < 4294967296) (ht : t < 4294967296)
    (h : i32Repr s = i32Repr t) : s = t := by
  unfold i32Repr at h
  by_cases h1 : s < 2147483648 <;> by_cases h2 : t < 2147483648
  · rw [if_pos h1, if_pos h2] at h
    exact natDecimal_injective h
  · rw [if_pos h1, if_neg h2] at h
    exact absurd h (natDecimal_ne_dash_append _ _)
  · rw [if_neg h1, if_pos h2] at h
    exact absurd h.symm (natDecimal_ne_dash_append _ _)
  · rw [if_neg h1, if_neg h2] at h
    have h3 := natDecimal_injective (str_append_left_cancel h)
    omega

namespace Compiler

theorem tempNameSeq_eq (i : Nat) : ∀ c : VariableCounter,
    tempNameSeq c i = "%_" ++ i32Repr ((c.tempcount + i + 1) % 4294967296) := by
  induction i with
  | zero => intro c; rfl
  | succ i ih =>
    intro c
    show tempNameSeq (c.next_temp).2 i = _
    rw [ih]
    have harg : ((c.next_temp).2.tempcount + i + 1) % 4294967296
        = (c.tempcount + (i + 1) + 1) % 4294967296 := by
      simp only [VariableCounter.next_temp]
      omega
    rw [harg]

end Compiler

theorem parse_lines_length : ∀ (lines : List (List Char)) (stmts : List Statement),
    parse_lines lines = .ok stmts → stmts.length = lines.length := by
  intro lines
  induction lines with
  | nil =>
    intro stmts h
    simp only [parse_lines] at h
    cases h
    rfl
  | cons line rest ih =>
    intro stmts h
    simp only [parse_lines] at h
    cases htok : tokenize_loop line with
    | error e => rw [htok] at h; cases h
    | ok tokens =>
      rw [htok] at h
      dsimp only at h
      cases hline : parse_line tokens with
      | error e => rw [hline] at h; cases h
      | ok stmt =>
        rw [hline] at h
        cases hrest : parse_lines rest with
        | error e => rw [hrest] at h; cases h
        | ok stmts2 =>
          rw [hrest] at h
          cases h
          simpa using ih stmts2 hrest

end Numers

namespace Numers

/-- C1: on the infix token sequence `1 + 2 - 3 * 4 / 5 ^ 6`, the converter
returns exactly `1 2 + 3 4 * 5 6 ^ / -`; the precedences are `+ - = 2`,
`* / = 3`, `^ = 4`, and an equal-precedence stack top pops only when the
incoming operator is left-associative (so `^` does not pop `^`). -/
theorem c1_rpn_precedence_and_right_assoc :
    infix_to_rpn [ParseToken.Number 1, ParseToken.Add, ParseToken.Number 2,
        ParseToken.Subtract, ParseToken.Number 3, ParseToken.Multiply, ParseToken.Number 4,
        ParseToken.Divide, ParseToken.Number 5, ParseToken.Exponent, ParseToken.Number 6]
      = .ok [ParseToken.Number 1, ParseToken.Number 2, ParseToken.Add,
        ParseToken.Number 3, ParseToken.Number 4, ParseToken.Multiply,
        ParseToken.Number 5, ParseToken.Number 6, ParseToken.Exponent,
        ParseToken.Divide, ParseToken.Subtract] ∧
    ParseToken.Add.presidence = 2 ∧ ParseToken.Subtract.presidence = 2 ∧
    ParseToken.Multiply.presidence = 3 ∧ ParseToken.Divide.presidence = 3 ∧
    ParseToken.Exponent.presidence = 4 ∧
    should_pop ParseToken.Exponent [ParseToken.Exponent] = false ∧
    should_pop ParseToken.Add [ParseToken.Add] = true :=
  ⟨rfl, rfl, rfl, rfl, rfl, rfl, rfl, rfl⟩

/-- C2: evaluating the converter at the single-argument call `f(x)`: the
function-head marker open-paren pushed below `f` is never popped, so the
output ends with a structural `OpenParen` token, contradicting the claim
that no structural tokens are left in the output. -/
theorem c2_single_arg_call_leaves_marker :
    infix_to_rpn [ParseToken.Identifier "f", ParseToken.OpenParen,
        ParseToken.Identifier "x", ParseToken.CloseParen]
      = .ok [ParseToken.Identifier "x", ParseToken.Identifier "f", ParseToken.OpenParen] :=
  rfl

/-- C3: evaluating `compile_expr` at the postfix body `[1, 2, +]`: the
source's evaluator has no arm for `Number` tokens, so compilation fails
immediately with `InvalidToken(Number 1)` instead of emitting the one add
instruction the claim describes. -/
theorem c3_compile_one_plus_two_rejected :
    Compiler.compile_expr [ParseToken.Number 1, ParseToken.Number 2, ParseToken.Add]
        Compiler.VariableCounter.new
      = .error (CompileError.InvalidToken (ParseToken.Number 1)) :=
  rfl

/-- C4: evaluating `compile_expr` at `[3, 4, *]` and at `[*]`: no token is
ever pushed onto the value stack (numbers and identifiers are rejected with
`InvalidToken`), so `*` never emits a `Mul` instruction — and the source's
operator arm constructs `Operation::Add` for every operator anyway; a lone
operator does fail with `OperandError` as claimed. -/
theorem c4_operator_evaluation_diverges :
    Compiler.compile_expr [ParseToken.Number 3, ParseToken.Number 4, ParseToken.Multiply]
        Compiler.VariableCounter.new
      = .error (CompileError.InvalidToken (ParseToken.Number 3)) ∧
    Compiler.compile_expr [ParseToken.Multiply] Compiler.VariableCounter.new
      = .error CompileError.OperandError :=
  ⟨rfl, rfl⟩

/-- C5: evaluating `compile_expr` at the postfix body `[x]` with no version
assigned to `x`: the evaluator rejects the identifier token with
`InvalidToken`, not with `NameError("x")`; `VariableCounter::get` would
produce `NameError("x")` as the claim describes, but is never called. -/
theorem c5_undeclared_identifier_not_name_error :
    Compiler.compile_expr [ParseToken.Identifier "x"] Compiler.VariableCounter.new
      = .error (CompileError.InvalidToken (ParseToken.Identifier "x")) ∧
    Compiler.VariableCounter.new.get "x" = .error (CompileError.NameError "x") :=
  ⟨rfl, rfl⟩

/-- C6: evaluating the lexer at `"9"`: the source's number-start pattern
`'0'..'9'` is an exclusive range, so a token starting with the digit `9`
fails with `InvalidCharacter('9')`, contradicting the claim that every digit
begins a numeric literal; `8` does begin one, and `9` is accepted inside a
literal (the interior character class `DIGITS` contains it). -/
theorem c6_digit_nine_rejected :
    tokenize "9" = .error (CompileError.InvalidCharacter '9') ∧
    tokenize "8" = .ok [ParseToken.Number 8] ∧
    tokenize "19" = .ok [ParseToken.Number 19] := by
  refine ⟨?_, ?_, ?_⟩ <;>
    simp +decide [tokenize, tokenize_loop, takeWhileContained, parseFloat, digitsVal,
      DIGITS, Except.map]

/-- C7 counterexample: parsing the two-line source `"1+2\n"`, whose second
line is blank, yields two statements — the blank line contributes
`Expression []` rather than being skipped, so the output does not contain
one entry per non-empty line only. -/
theorem c7_blank_line_produces_statement :
    parse "1+2\n" = .ok [Statement.Expression [ParseToken.Number 1, ParseToken.Number 2,
      ParseToken.Add], Statement.Expression []] := by
  simp +decide [parse, parse_lines, parse_line, splitLines, tokenize_loop, takeWhileContained,
    parseFloat, digitsVal, DIGITS, infix_to_rpn, infix_loop, pop_while, should_pop, Except.map,
    split_once, split_declaration, ParseToken.is_left_associative, ParseToken.presidence]

/-- C7 (amended): every line, blank ones included, contributes exactly one
statement: a successful `parse` returns as many statements as the source has
lines (a blank line's statement being an `Expression` with empty body), and
`parse` does not fail on blank lines. -/
theorem c7_amended_one_statement_per_line (source : String)
    (stmts : List Statement) (h : parse source = .ok stmts) :
    stmts.length = (splitLines source.toList).length :=
  parse_lines_length _ _ h

/-- C7 witness: the amended statement applied to the concrete source
`"1+2\n"`. -/
theorem c7_amended_one_statement_per_line_witness :
    ([Statement.Expression [ParseToken.Number 1, ParseToken.Number 2, ParseToken.Add],
      Statement.Expression []] : List Statement).length
      = (splitLines "1+2\n".toList).length :=
  c7_amended_one_statement_per_line "1+2\n" _ (by
    simp +decide [parse, parse_lines, parse_line, splitLines, tokenize_loop, takeWhileContained,
      parseFloat, digitsVal, DIGITS, infix_to_rpn, infix_loop, pop_while, should_pop, Except.map,
      split_once, split_declaration, ParseToken.is_left_associative, ParseToken.presidence])

/-- C8 counterexample: `tempcount` is an `i32` and `next_temp`'s increment
wraps after `2^32` calls (release overflow semantics), so the 1st and the
`(2^32+1)`-th call of one run return the same name `%_1`: the names handed
out by the temporary counter are not pairwise distinct over an unbounded
run, refuting the claim as stated. -/
theorem c8_wraparound_reuses_name :
    Compiler.tempNameSeq Compiler.VariableCounter.new 0
      = Compiler.tempNameSeq Compiler.VariableCounter.new 4294967296 := by
  rw [Compiler.tempNameSeq_eq, Compiler.tempNameSeq_eq]
  norm_num [Compiler.VariableCounter.new]

/-- C8 (amended): among the first `2^32` calls of one run — before the
`i32` counter can wrap — the temporary counter returns pairwise-distinct
names, the `(i+1)`-th from a fresh counter being `%_(i+1)` while the count
stays below `2^31`; so no destination name is assigned twice in any
compilation that emits fewer than `2^32 + 1` instructions. -/
theorem c8_amended_fresh_before_wrap :
    (∀ i : Nat, i + 1 < 2147483648 →
      Compiler.tempNameSeq Compiler.VariableCounter.new i = "%_" ++ natDecimal (i + 1)) ∧
    (∀ (c : Compiler.VariableCounter) (i j : Nat), i ≠ j →
      i < 4294967296 → j < 4294967296 →
      Compiler.tempNameSeq c i ≠ Compiler.tempNameSeq c j) := by
  constructor
  · intro i hi
    rw [Compiler.tempNameSeq_eq]
    have h0 : Compiler.VariableCounter.new.tempcount = 0 := rfl
    rw [h0]
    have hm : (0 + i + 1) % 4294967296 = i + 1 := by omega
    rw [hm]
    unfold i32Repr
    rw [if_pos hi]
  · intro c i j hij hi hj
    rw [Compiler.tempNameSeq_eq, Compiler.tempNameSeq_eq]
    intro he
    have he2 := i32Repr_inj (Nat.mod_lt _ (by norm_num)) (Nat.mod_lt _ (by norm_num))
      (str_append_left_cancel he)
    omega

/-- C8 witness: the amended statement applied at concrete indices: a fresh
counter's first call returns `%_1` and differs from its second call. -/
theorem c8_amended_fresh_before_wrap_witness :
    Compiler.tempNameSeq Compiler.VariableCounter.new 0 = "%_" ++ natDecimal 1 ∧
    Compiler.tempNameSeq Compiler.VariableCounter.new 0
      ≠ Compiler.tempNameSeq Compiler.VariableCounter.new 1 :=
  ⟨c8_amended_fresh_before_wrap.1 0 (by norm_num),
    c8_amended_fresh_before_wrap.2 Compiler.VariableCounter.new 0 1 (by decide)
      (by norm_num) (by norm_num)⟩

/-- C9: evaluating the instruction formatter: an `Add` instruction renders
as `\t%_1 =d add %x_0 %_2` — mnemonic correct, but the two operands are
space-separated and each gets an extra `%` prefix, not the claimed
comma-separated already-resolved names; `^` does render as a `$pow` call
with both operands. -/
theorem c9_formatter_space_separated :
    Compiler.Statement.toString (Compiler.Statement.new "%_1"
        (Compiler.Operation.Add "x_0" "_2")) = "\t%_1 =d add %x_0 %_2" ∧
    (Compiler.Operation.toString (Compiler.Operation.Add "x_0" "_2")).data.contains ',' = false ∧
    Compiler.Operation.toString (Compiler.Operation.Sub "a" "b") = "sub %a %b" ∧
    Compiler.Operation.toString (Compiler.Operation.Mul "a" "b") = "mul %a %b" ∧
    Compiler.Operation.toString (Compiler.Operation.Div "a" "b") = "div %a %b" ∧
    Compiler.Operation.toString (Compiler.Operation.Pow "x" "y") = "call $pow(d x, d y)" := by
  refine ⟨?_, ?_, ?_, ?_, ?_, ?_⟩ <;> decide

/-- C10: the infix-to-postfix converter is total and never returns an error:
every token sequence yields `Ok`; an unmatched close-paren drains the
operator stack into the output, and operators or open-parens left on the
stack at end of input are appended to the output. -/
theorem c10_converter_total :
    (∀ expr : List ParseToken, ∃ output, infix_to_rpn expr = .ok output) ∧
    infix_to_rpn [ParseToken.Number 1, ParseToken.Add, ParseToken.CloseParen]
      = .ok [ParseToken.Number 1, ParseToken.Add] ∧
    infix_to_rpn [ParseToken.OpenParen, ParseToken.Number 1]
      = .ok [ParseToken.Number 1, ParseToken.OpenParen] :=
  ⟨fun expr => ⟨infix_loop expr [] [], rfl⟩, rfl, rfl⟩

end Numers
